import Mathlib

set_option autoImplicit false

/-!
Shallow embedding of the news-digest bot's scheduled-delivery core: the TTL
cache (`utils/cache.py`), the news fetch client (`services/news_api.py`), the
digest assembler (`services/digest.py`), the schedule and user repositories
(`database/repositories/schedule.py`, `database/repositories/user.py`) and the
delivery loop (`services/scheduler.py`).  Clock readings and timestamps are
modelled as integer seconds, stateful methods as explicit state passing, and
every external effect (HTTP response, database outcome, dispatch result) as an
explicit input.
-/

/-- Article data transfer object from `services/news_api.py` (`ArticleDTO`):
`external_id` is the article's identity (in the source, the MD5 hex digest of
the URL), `published_at` an integer timestamp. -/
structure Article where
  external_id : String
  title : String
  description : Option String
  url : String
  source_name : Option String
  image_url : Option String
  published_at : Int
  deriving DecidableEq

/-- Cache entry with expiration (`utils/cache.py`, `CacheEntry`). -/
structure CacheEntry (T : Type) where
  value : T
  expires_at : Int
  deriving DecidableEq

/-- Simple in-memory TTL cache (`utils/cache.py`, `TTLCache`): the Python dict
is modelled as an association list whose keys are distinct. -/
structure TTLCache (T : Type) where
  ttl_seconds : Int
  cache : List (String × CacheEntry T)
  deriving DecidableEq

/-- Dict lookup `self._cache.get(key)`. -/
def TTLCache.lookup {T : Type} (c : TTLCache T) (key : String) : Option (CacheEntry T) :=
  (c.cache.find? (fun p => p.1 == key)).map (fun p => p.2)

/-- Embedding of `utils/cache.py`, `TTLCache.get`: the second component is the cache state
after the call (an expired entry is deleted as a side effect). -/
def TTLCache.get {T : Type} (c : TTLCache T) (now : Int) (key : String) :
    Option T × TTLCache T :=
  match c.lookup key with
  | none => (none, c)
  | some entry =>
    if now > entry.expires_at then
      (none, { c with cache := c.cache.filter (fun p => !(p.1 == key)) })
    else
      (some entry.value, c)

/-- Python dict assignment `d[k] = v`: replaces the binding in place when the
key exists, otherwise appends it. -/
def dictSet {β : Type} (l : List (String × β)) (k : String) (v : β) : List (String × β) :=
  if l.any (fun p => p.1 == k) then
    l.map (fun p => if p.1 == k then (k, v) else p)
  else
    l ++ [(k, v)]

/-- Embedding of `utils/cache.py`, `TTLCache.set`. -/
def TTLCache.set {T : Type} (c : TTLCache T) (now : Int) (key : String) (value : T)
    (ttl_seconds : Option Int) : TTLCache T :=
  let ttl := match ttl_seconds with | some t => t | none => c.ttl_seconds
  { c with cache := dictSet c.cache key ⟨value, now + ttl⟩ }

/-- Embedding of `utils/cache.py`, `TTLCache.__len__`: counts all entries, including ones
whose TTL has already elapsed. -/
def TTLCache.len {T : Type} (c : TTLCache T) : Nat :=
  c.cache.length

/-- Cache key built by `NewsApiService.search` (`services/news_api.py`). -/
def searchCacheKey (query lang : String) : String :=
  "search:" ++ query ++ ":" ++ lang

/-- Outcome of one HTTP attempt inside `NewsApiService._request`: a response
with its status code (carrying, for a 200, the parsed article list of the
body), or an `aiohttp.ClientError`. -/
inductive HttpOutcome where
  | resp (code : Nat) (data : List Article)
  | netError
  deriving DecidableEq

/-- Result of `NewsApiService._request`: `ok` is a 200 body, `noData` the
`None` return (bad request, or exhausted retries), `rateLimited` the raised
`RateLimitError`. -/
inductive RequestResult where
  | ok (data : List Article)
  | noData
  | rateLimited
  deriving DecidableEq

/-- The retry loop of `NewsApiService._request` (`services/news_api.py`),
recursing on the remaining iterations of `for attempt in range(retries)`:
returns the result, the list of backoff sleeps performed (in seconds), and the
number of attempts consumed. -/
def requestLoop (responses : Nat → HttpOutcome) : Nat → Nat → RequestResult × List Nat × Nat
  | _, 0 => (.noData, [], 0)
  | attempt, remaining + 1 =>
    let r := requestLoop responses (attempt + 1) remaining
    let retry : RequestResult × List Nat × Nat :=
      if remaining = 0 then (r.1, r.2.1, r.2.2 + 1)
      else (r.1, 2 ^ attempt :: r.2.1, r.2.2 + 1)
    match responses attempt with
    | .netError => retry
    | .resp code data =>
      if code = 200 then (.ok data, [], 1)
      else if code = 403 then (.rateLimited, [], 1)
      else if code = 400 then (.noData, [], 1)
      else retry

/-- Embedding of `NewsApiService._request` with its default `retries = 3`. -/
def NewsApiService.request (responses : Nat → HttpOutcome) : RequestResult × List Nat × Nat :=
  requestLoop responses 0 3

/-- Embedding of `services/news_api.py`, `NewsApiService.search`, parametrised by the
outcome of `_request` on a cache miss: returns the article list and the
articles-cache state after the call. -/
def NewsApiService.search (c : TTLCache (List Article)) (now : Int)
    (query lang : String) (req : RequestResult) :
    List Article × TTLCache (List Article) :=
  let g := c.get now (searchCacheKey query lang)
  let cached := g.1
  let c1 := g.2
  if cached.isSome then (cached.getD [], c1)
  else
    match req with
    | .ok articles => (articles, c1.set now (searchCacheKey query lang) articles none)
    | .noData => ([], c1)
    | .rateLimited => (cached.getD [], c1)

/-- Composition of `search` with `_request` over the per-attempt HTTP outcomes. -/
def NewsApiService.searchFull (c : TTLCache (List Article)) (now : Int)
    (query lang : String) (responses : Nat → HttpOutcome) :
    List Article × TTLCache (List Article) :=
  NewsApiService.search c now query lang (NewsApiService.request responses).1

/-- The dedup loop of `NewsApiService.search_multiple` (`services/news_api.py`),
over the concatenation of the per-query result lists, carrying the `seen_ids`
set as an accumulator. -/
def dedupArticles (seen : List String) : List Article → List Article
  | [] => []
  | a :: rest =>
    if seen.contains a.external_id then dedupArticles seen rest
    else a :: dedupArticles (a.external_id :: seen) rest

/-- Comparator of the final sort in `search_multiple`: newest first
(`sort(key=lambda a: a.published_at, reverse=True)`, a stable sort). -/
def articleLe (a b : Article) : Bool :=
  decide (b.published_at ≤ a.published_at)

/-- Embedding of `services/news_api.py`, `NewsApiService.search_multiple`, parametrised by
the per-query result lists returned by `search`. -/
def NewsApiService.search_multiple (results : List (List Article)) : List Article :=
  (dedupArticles [] results.flatten).mergeSort articleLe

/-- Embedding of `services/digest.py`, `DigestResult`. -/
structure DigestResult where
  articles : List Article
  topics : List String
  from_cache : Bool
  error : Option String
  deriving DecidableEq

/-- Cache key built by `DigestService.generate_digest`. -/
def digestCacheKey (telegram_id : Int) : String :=
  "digest:" ++ toString telegram_id

/-- Outcome of loading the user's topics (`services/digest.py`). -/
inductive TopicsOutcome where
  | ok (topics : List String)
  | dbError
  deriving DecidableEq

/-- Outcome of the fetch layer (`search_multiple`) as observed by
`generate_digest`: an article list, or one of the two exceptions its handlers
catch. -/
inductive FetchOutcome where
  | ok (articles : List Article)
  | rateLimited
  | apiError
  deriving DecidableEq

/-- Embedding of `services/digest.py`, `DigestService.generate_digest`, parametrised by the
database and fetch outcomes; returns the result and the digest-cache state
after the call. -/
def DigestService.generate_digest (dc : TTLCache DigestResult) (now : Int)
    (telegram_id : Int) (max_articles : Nat)
    (tops : TopicsOutcome) (fetch : FetchOutcome) :
    DigestResult × TTLCache DigestResult :=
  let g := dc.get now (digestCacheKey telegram_id)
  let cached := g.1
  let dc1 := g.2
  match cached with
  | some r => ({ r with from_cache := true }, dc1)
  | none =>
    match tops with
    | .dbError =>
      ({ articles := [], topics := [], from_cache := false, error := some "database_error" }, dc1)
    | .ok topics =>
      if topics.isEmpty then
        ({ articles := [], topics := [], from_cache := false, error := some "no_topics" }, dc1)
      else
        match fetch with
        | .ok arts =>
          let result : DigestResult :=
            { articles := arts.take max_articles, topics := topics,
              from_cache := false, error := none }
          (result, dc1.set now (digestCacheKey telegram_id) result none)
        | .rateLimited =>
          match cached with
          | some r => ({ r with from_cache := true }, dc1)
          | none =>
            ({ articles := [], topics := topics, from_cache := false, error := some "rate_limit" }, dc1)
        | .apiError =>
          ({ articles := [], topics := topics, from_cache := false, error := some "api_error" }, dc1)

/-- Embedding of `database/models.py`, `Schedule` — the fields the delivery engine reads or
is specified to write. -/
structure Schedule where
  user_id : Int
  is_active : Bool
  times : List String
  timezone : String
  last_sent_at : Option Int
  deriving DecidableEq

/-- Embedding of `database/models.py`, `User` — the fields `get_or_create` touches. -/
structure User where
  telegram_id : Int
  username : Option String
  first_name : Option String
  language_code : String
  deriving DecidableEq

/-- PostgreSQL JSONB array containment (`@>`) for arrays of strings, as used
in `Schedule.times.contains([time_str])`: every element of `sub` is an element
of `arr`. -/
def jsonbContains (arr sub : List String) : Bool :=
  sub.all (fun x => arr.contains x)

/-- Embedding of `database/repositories/schedule.py`,
`ScheduleRepository.get_schedules_for_time`: the
`SELECT ... WHERE is_active == True AND times @> [time_str]` over the joined
(schedule, user) rows. -/
def ScheduleRepository.get_schedules_for_time (db : List (Schedule × User))
    (time_str : String) : List (Schedule × User) :=
  db.filter (fun p => p.1.is_active && jsonbContains p.1.times [time_str])

/-- Behaviour of the messaging collaborator for one send
(`bot.send_message`). -/
inductive DispatchOutcome where
  | ok
  | raises
  deriving DecidableEq

/-- What one user's pipeline does inside `send_scheduled_digest`
(`services/scheduler.py`): `generate_digest` raises, or returns a digest
result, after which the dispatch may raise. -/
inductive UserOutcome where
  | generateRaises
  | generated (r : DigestResult) (dispatch : DispatchOutcome)
  deriving DecidableEq

/-- The body of `send_scheduled_digest` before its `except` handler;
`Except.error` is an exception escaping the body. -/
def send_digest_body : UserOutcome → Except Unit Bool
  | .generateRaises => .error ()
  | .generated r dispatch =>
    if r.error.isSome || r.articles.isEmpty then .ok false
    else
      match dispatch with
      | .ok => .ok true
      | .raises => .error ()

/-- Embedding of `services/scheduler.py`, `send_scheduled_digest`: the `try/except` around
the whole body returns `False` on any exception. -/
def send_scheduled_digest (o : UserOutcome) : Bool :=
  match send_digest_body o with
  | .ok b => b
  | .error _ => false

/-- Embedding of `services/scheduler.py`, `check_and_send_digests` for one tick: queries
the due schedules and runs `send_scheduled_digest` on each (schedule, user)
pair in order; the second component is the schedule store after the tick (the
loop issues no store write). -/
def check_and_send_digests (db : List (Schedule × User)) (time_str : String)
    (outcomes : Int → UserOutcome) : List Bool × List (Schedule × User) :=
  ((ScheduleRepository.get_schedules_for_time db time_str).map
    (fun p => send_scheduled_digest (outcomes p.2.telegram_id)), db)

/-- Embedding of `database/repositories/user.py`, `UserRepository.get_by_telegram_id`. -/
def UserRepository.get_by_telegram_id (users : List User) (telegram_id : Int) : Option User :=
  users.find? (fun u => u.telegram_id == telegram_id)

/-- Result of `UserRepository.get_or_create`: the returned user and `created`
flag, the user table after the call, and whether any write (a flush of an
update, or an insert) was performed. -/
structure GetOrCreateResult where
  user : User
  created : Bool
  users : List User
  wrote : Bool
  deriving DecidableEq

/-- Embedding of `database/repositories/user.py`, `UserRepository.get_or_create`: the three
update guards run in sequence on the found row; the table is written only when
some guard fired (`flush` under `if updated`), or on the insert path. -/
def UserRepository.get_or_create (users : List User) (telegram_id : Int)
    (username first_name : Option String) (language_code : String) : GetOrCreateResult :=
  match UserRepository.get_by_telegram_id users telegram_id with
  | some user =>
    let upd1 : Bool := username.isSome && !(user.username == username)
    let u1 := if upd1 then { user with username := username } else user
    let upd2 : Bool := first_name.isSome && !(u1.first_name == first_name)
    let u2 := if upd2 then { u1 with first_name := first_name } else u1
    let upd3 : Bool := !(language_code == "") && !(u2.language_code == language_code)
    let u3 := if upd3 then { u2 with language_code := language_code } else u2
    let updated := upd1 || upd2 || upd3
    { user := u3, created := false,
      users :=
        if updated then
          users.map (fun u => if u.telegram_id == telegram_id then u3 else u)
        else users,
      wrote := updated }
  | none =>
    let user : User :=
      { telegram_id := telegram_id, username := username,
        first_name := first_name, language_code := language_code }
    { user := user, created := true, users := users ++ [user], wrote := true }

/-- Modelled from the spec: `texts/digest.py` (imported by
`DigestService.format_digest_message`) is not among the repository's files;
per the spec the message renders a header first. -/
def DIGEST_HEADER : String :=
  "Ваш дайджест новостей\n\n"

/-- Modelled from the spec: optional topics-summary line of the digest
message, filled with the joined topic names. -/
def DIGEST_TOPICS_HEADER (topics : String) : String :=
  "Темы: " ++ topics ++ "\n\n"

/-- Modelled from the spec: article block template with a description — the
title, the truncated description, the source name, a human time-ago string and
the URL. -/
def ARTICLE_FORMAT (title description source time_ago url : String) : String :=
  "*" ++ title ++ "*\n" ++ description ++ "\n" ++ source ++ " | " ++ time_ago ++ "\n" ++ url ++ "\n"

/-- Modelled from the spec: article block template without a description. -/
def ARTICLE_FORMAT_SHORT (title source time_ago url : String) : String :=
  "*" ++ title ++ "*\n" ++ source ++ " | " ++ time_ago ++ "\n" ++ url ++ "\n"

/-- Modelled from the spec: the visual divider between article blocks. -/
def ARTICLE_SEPARATOR : String :=
  "\n\n"

/-- Modelled from the spec: the footer closing the digest message. -/
def DIGEST_FOOTER : String :=
  "\n\nХорошего дня!"

/-- Embedding of `services/digest.py`, `DigestService.format_time_ago`, with timestamps as
integer seconds; the final `strftime` absolute date is abstracted as the
decimal timestamp (no claim depends on that branch's text). -/
def format_time_ago (now dt : Int) : String :=
  let seconds := now - dt
  if seconds < 60 then "только что"
  else if seconds < 3600 then toString (seconds / 60) ++ " мин. назад"
  else if seconds < 86400 then toString (seconds / 3600) ++ " ч. назад"
  else if seconds < 604800 then toString (seconds / 86400) ++ " дн. назад"
  else toString dt

/-- The escape list of `DigestService._escape_markdown` (`services/digest.py`). -/
def special_chars : List Char :=
  ['*', '_', '[', ']', '(', ')', '~', '\x60', '>', '#', '+', '-', '=', '|', '\x7b', '\x7d', '.', '!']

/-- One pass of Python `text.replace(char, "\\" + char)` for a single-character
pattern. -/
def replaceEsc (c : Char) : List Char → List Char
  | [] => []
  | x :: xs => if x = c then '\\' :: c :: replaceEsc c xs else x :: replaceEsc c xs

/-- Embedding of `services/digest.py`, `DigestService._escape_markdown`: the replacements
run in sequence over the escape list. -/
def escape_markdown (s : String) : String :=
  String.mk (special_chars.foldl (fun acc c => replaceEsc c acc) s.data)

/-- Python `article.source_name or "Источник"` — an absent or empty (falsy)
source name becomes the generic placeholder. -/
def sourceOrPlaceholder (a : Article) : String :=
  match a.source_name with
  | some s => if s == "" then "Источник" else s
  | none => "Источник"

/-- Python character slicing `s[:n]`, at the level of the character list. -/
def strTake (s : String) (n : Nat) : String :=
  String.mk (s.data.take n)

/-- One article block of `format_digest_message` (`services/digest.py`): the
title and the truncated description pass through `_escape_markdown`, the
source name does not. -/
def articleBlock (now : Int) (show_descriptions : Bool) (a : Article) : String :=
  let time_ago := format_time_ago now a.published_at
  let source := sourceOrPlaceholder a
  let title := escape_markdown a.title
  let desc_raw := a.description.getD ""
  let description :=
    if show_descriptions && !(desc_raw == "") then
      escape_markdown (strTake desc_raw 200) ++ (if desc_raw.length > 200 then "..." else "")
    else ""
  if show_descriptions && !(description == "") then
    ARTICLE_FORMAT title description source time_ago a.url
  else
    ARTICLE_FORMAT_SHORT title source time_ago a.url

/-- The numbered article blocks with separators (`services/digest.py`): `i` is
the index of the head article, `n` the total count (a separator follows every
block but the last). -/
def articleParts (now : Int) (show_descriptions : Bool) (n : Nat) :
    Nat → List Article → List String
  | _, [] => []
  | i, a :: rest =>
    if i < n - 1 then
      (toString (i + 1) ++ ". " ++ articleBlock now show_descriptions a) ::
        ARTICLE_SEPARATOR :: articleParts now show_descriptions n (i + 1) rest
    else
      (toString (i + 1) ++ ". " ++ articleBlock now show_descriptions a) ::
        articleParts now show_descriptions n (i + 1) rest

/-- Embedding of `services/digest.py`, `DigestService.format_digest_message`. -/
def format_digest_message (now : Int) (result : DigestResult)
    (show_descriptions : Bool) : String :=
  if result.articles.isEmpty then ""
  else
    let parts1 : List String := [DIGEST_HEADER]
    let parts2 : List String :=
      if !result.topics.isEmpty then
        let base := String.intercalate ", " (result.topics.take 5)
        let topics_str :=
          if result.topics.length > 5 then
            base ++ " (+" ++ toString (result.topics.length - 5) ++ ")"
          else base
        parts1 ++ [DIGEST_TOPICS_HEADER topics_str]
      else parts1
    String.join
      (parts2 ++ articleParts now show_descriptions result.articles.length 0 result.articles
        ++ [DIGEST_FOOTER])

/-- Concrete article used in example instantiations. -/
def a1 : Article :=
  { external_id := "id1", title := "Python news", description := none,
    url := "http://a1", source_name := none, image_url := none, published_at := 100 }

/-- Concrete article with a description and a source, used in example
instantiations. -/
def a2 : Article :=
  { external_id := "id2", title := "AI news", description := some "Details",
    url := "http://a2", source_name := some "TechCrunch", image_url := none,
    published_at := 200 }

/-- Concrete article whose source name holds a Markdown-reserved character. -/
def aSrc : Article :=
  { external_id := "id3", title := "Title", description := some "Desc",
    url := "http://a3", source_name := some "x_y", image_url := none,
    published_at := 0 }

/-- Concrete digest result holding one article. -/
def digestR1 : DigestResult :=
  { articles := [a1], topics := ["python"], from_cache := false, error := none }

/-- Concrete digest result holding the article with the reserved character in
its source name. -/
def digestRSrc : DigestResult :=
  { articles := [aSrc], topics := [], from_cache := false, error := none }

/-- Concrete digest result holding the article with a description. -/
def digestRd : DigestResult :=
  { articles := [a2], topics := ["ai"], from_cache := false, error := none }

/-- Concrete digest result with no articles. -/
def digestR0 : DigestResult :=
  { articles := [], topics := [], from_cache := false, error := none }

/-- Articles cache holding a stale (expired at 100) non-empty entry for the
search key of query `python`, language `ru`. -/
def staleArticlesCache : TTLCache (List Article) :=
  { ttl_seconds := 1800, cache := [(searchCacheKey "python" "ru", ⟨[a1], 100⟩)] }

/-- Empty articles cache with the default 30-minute TTL. -/
def emptyArticlesCache : TTLCache (List Article) :=
  { ttl_seconds := 1800, cache := [] }

/-- Digest cache holding a stale (expired at 100) entry for user 1. -/
def staleDigestCache : TTLCache DigestResult :=
  { ttl_seconds := 300, cache := [(digestCacheKey 1, ⟨digestR1, 100⟩)] }

/-- Concrete `TTLCache Nat` with one entry expiring at 10. -/
def cacheNat0 : TTLCache Nat :=
  { ttl_seconds := 1800, cache := [("k", ⟨7, 10⟩)] }

/-- Concrete schedule for user 1, active at 08:00 and 18:00. -/
def sched1 : Schedule :=
  { user_id := 1, is_active := true, times := ["08:00", "18:00"],
    timezone := "Europe/Moscow", last_sent_at := none }

/-- Concrete schedule for user 2, active at 08:00. -/
def sched2 : Schedule :=
  { user_id := 2, is_active := true, times := ["08:00"],
    timezone := "Europe/Moscow", last_sent_at := none }

/-- Concrete user rows. -/
def user1 : User :=
  { telegram_id := 1, username := some "alice", first_name := some "Alice",
    language_code := "ru" }

/-- Second concrete user row, with absent display fields. -/
def user2 : User :=
  { telegram_id := 2, username := none, first_name := none, language_code := "ru" }

/-- One-row schedule store. -/
def db1 : List (Schedule × User) := [(sched1, user1)]

/-- Two-row schedule store. -/
def db2 : List (Schedule × User) := [(sched1, user1), (sched2, user2)]

/-- Fallback pair for positional reads of the due list. -/
def dfltPair : Schedule × User :=
  ({ user_id := 0, is_active := false, times := [], timezone := "", last_sent_at := none },
   { telegram_id := 0, username := none, first_name := none, language_code := "" })

/-- Per-user pipeline outcomes where user 1 raises inside `generate_digest` and
every other user generates a good digest and dispatches successfully. -/
def outcomes2 : Int → UserOutcome :=
  fun i => if i == 1 then .generateRaises else .generated digestR1 .ok

/-- HTTP outcome that is neither a 200, a 403, a 400 nor a network error
classifier: holds exactly when `_request` takes its retry branch. -/
def otherFailure : HttpOutcome → Bool
  | .resp code _ => !(code == 200) && !(code == 403) && !(code == 400)
  | .netError => true

/-- Removing the unique binding of a present key shrinks a dict by exactly
one entry. -/
theorem length_filter_out_key {T : Type} (key : String) :
    ∀ l : List (String × CacheEntry T),
      (l.map Prod.fst).Nodup →
      (l.find? (fun p => p.1 == key)).isSome = true →
      (l.filter (fun p => !(p.1 == key))).length + 1 = l.length := by
  intro l
  induction l with
  | nil => intro _ h; simp [List.find?] at h
  | cons p l ih =>
    intro hnd hsome
    have hnd' : (p.1 :: l.map Prod.fst).Nodup := by simpa using hnd
    obtain ⟨hp, hl⟩ := List.nodup_cons.mp hnd'
    by_cases h : p.1 = key
    · have hfilter : l.filter (fun q => !(q.1 == key)) = l := by
        refine List.filter_eq_self.mpr ?_
        intro q hq
        have hqk : q.1 ≠ key := by
          intro hqk
          exact hp (List.mem_map.mpr ⟨q, hq, hqk.trans h.symm⟩)
        simp [hqk]
      simp [List.filter_cons, h, hfilter]
    · have hbeq : (p.1 == key) = false := by simp [h]
      have hsome' : (l.find? (fun q => q.1 == key)).isSome = true := by
        rwa [List.find?_cons_of_neg _ (by simp [h])] at hsome
      have hrec := ih hl hsome'
      simp only [List.filter_cons, hbeq, Bool.not_false, if_pos, List.length_cons]
      omega

/-- C5: for every key whose entry's TTL has elapsed, `TTLCache.get` returns
absent, removes the entry as a side effect (a subsequent `len` reflects the
removal), and any later `get` on that key never observes the expired value. -/
theorem ttlcache_get_expired_evicts {T : Type} (c : TTLCache T) (now now2 : Int)
    (key : String) (entry : CacheEntry T)
    (hnodup : (c.cache.map Prod.fst).Nodup)
    (hfind : c.lookup key = some entry)
    (hexp : now > entry.expires_at) :
    (c.get now key).1 = none ∧
    ((c.get now key).2).lookup key = none ∧
    ((c.get now key).2).len + 1 = c.len ∧
    (((c.get now key).2).get now2 key).1 = none := by
  have hget : c.get now key =
      (none, { c with cache := c.cache.filter (fun p => !(p.1 == key)) }) := by
    simp only [TTLCache.get, hfind, if_pos hexp]
  have hfind2 : (c.cache.filter (fun p => !(p.1 == key))).find?
      (fun p => p.1 == key) = none := by
    refine List.find?_eq_none.mpr ?_
    intro x hx
    have hx2 := (List.mem_filter.mp hx).2
    simp at hx2
    simp [hx2]
  have hlookup2 : ({ c with cache := c.cache.filter (fun p => !(p.1 == key)) } :
      TTLCache T).lookup key = none := by
    simp [TTLCache.lookup, hfind2]
  have hsome : (c.cache.find? (fun p => p.1 == key)).isSome = true := by
    rw [TTLCache.lookup] at hfind
    rcases Option.map_eq_some'.mp hfind with ⟨q, hq, _⟩
    simp [hq]
  refine ⟨by rw [hget], by rw [hget]; exact hlookup2, ?_, ?_⟩
  · rw [hget]
    simpa [TTLCache.len] using length_filter_out_key key c.cache hnodup hsome
  · rw [hget]
    simp [TTLCache.get, TTLCache.lookup, hfind2]

/-- Witness for C5 at a concrete cache: entry for key `k` expired at 10, read
at 11 and again at 12. -/
theorem ttlcache_get_expired_evicts_witness :
    (cacheNat0.get 11 "k").1 = none ∧
    ((cacheNat0.get 11 "k").2).lookup "k" = none ∧
    ((cacheNat0.get 11 "k").2).len + 1 = cacheNat0.len ∧
    (((cacheNat0.get 11 "k").2).get 12 "k").1 = none :=
  ttlcache_get_expired_evicts cacheNat0 11 12 "k" ⟨7, 10⟩ (by decide) (by decide) (by decide)

/-- C1: evidence of the divergence between `NewsApiService.search` and its
own rate-limit comment — with a stale non-empty cached list for the key
(expired at 100, the call at 200), a rate-limited search returns the empty
list, not the previously fetched value: the local `cached` is always `None`
in the `except RateLimitError` handler, because a hit returned early and
`TTLCache.get` evicted any expired entry. -/
theorem search_rate_limited_returns_empty_despite_stale_cache :
    staleArticlesCache.lookup (searchCacheKey "python" "ru") = some ⟨[a1], 100⟩ ∧
    NewsApiService.search staleArticlesCache 200 "python" "ru" .rateLimited =
      ([], { ttl_seconds := 1800, cache := [] }) := by
  exact ⟨by decide, by decide⟩

/-- C2: evidence of the same divergence in `DigestService.generate_digest` —
with a stale cached digest for user 1 (expired at 100, the call at 200) and a
rate-limited fetch, the call returns the `rate_limit` error result instead of
the previously cached digest, because the `if cached` fallback in the
`except RateLimitError` handler can never see a value. -/
theorem generate_digest_rate_limited_drops_stale_cache :
    staleDigestCache.lookup (digestCacheKey 1) = some ⟨digestR1, 100⟩ ∧
    DigestService.generate_digest staleDigestCache 200 1 10 (.ok ["python"]) .rateLimited =
      ({ articles := [], topics := ["python"], from_cache := false, error := some "rate_limit" },
        { ttl_seconds := 300, cache := [] }) := by
  exact ⟨by decide, by decide⟩

/-- C3: the delivery loop never writes the schedule store — for every tick the
store comes back unchanged, and in particular a successful generation and
dispatch for the due user leaves `last_sent_at` untouched (`None`). -/
theorem scheduler_success_never_updates_last_sent :
    (∀ (db : List (Schedule × User)) (t : String) (o : Int → UserOutcome),
        (check_and_send_digests db t o).2 = db) ∧
    check_and_send_digests db1 "08:00" (fun _ => .generated digestR1 .ok) = ([true], db1) ∧
    sched1.last_sent_at = none := by
  refine ⟨fun db t o => rfl, by decide, rfl⟩

/-- C7: `get_schedules_for_time` returns exactly the rows whose schedule is
active and whose time-set contains the queried time string as a member; the
concrete schedule with times 08:00 and 18:00 is included at 08:00, excluded at
08:05, and inactive schedules are never returned. -/
theorem get_schedules_for_time_membership :
    (∀ (db : List (Schedule × User)) (time_str : String) (p : Schedule × User),
        p ∈ ScheduleRepository.get_schedules_for_time db time_str ↔
          p ∈ db ∧ p.1.is_active = true ∧ time_str ∈ p.1.times) ∧
    ((sched1, user1) ∈ ScheduleRepository.get_schedules_for_time db1 "08:00") ∧
    ((sched1, user1) ∉ ScheduleRepository.get_schedules_for_time db1 "08:05") ∧
    (∀ (db : List (Schedule × User)) (time_str : String) (p : Schedule × User),
        p.1.is_active = false → p ∉ ScheduleRepository.get_schedules_for_time db time_str) := by
  have hmem : ∀ (db : List (Schedule × User)) (time_str : String) (p : Schedule × User),
      p ∈ ScheduleRepository.get_schedules_for_time db time_str ↔
        p ∈ db ∧ p.1.is_active = true ∧ time_str ∈ p.1.times := by
    intro db t p
    simp [ScheduleRepository.get_schedules_for_time, List.mem_filter, jsonbContains,
      List.contains, List.elem_iff, and_assoc]
  refine ⟨hmem, by decide, by decide, ?_⟩
  intro db t p hact hp
  have hchr := (hmem db t p).mp hp
  rw [hact] at hchr
  simp at hchr

/-- Replacing the row of a present key in-place leaves it findable, and the
lookup returns the replacement. -/
theorem get_by_telegram_id_map_replace (users : List User) (tid : Int) (v : User)
    (hv : (v.telegram_id == tid) = true)
    (hsome : (UserRepository.get_by_telegram_id users tid).isSome = true) :
    UserRepository.get_by_telegram_id
      (users.map (fun u => if u.telegram_id == tid then v else u)) tid = some v := by
  induction users with
  | nil => simp [UserRepository.get_by_telegram_id] at hsome
  | cons u us ih =>
    unfold UserRepository.get_by_telegram_id at *
    cases h : (u.telegram_id == tid) with
    | true =>
      simp only [List.map_cons, h, if_true, ite_true]
      exact List.find?_cons_of_pos _ hv
    | false =>
      have hsome' : (us.find? (fun w => w.telegram_id == tid)).isSome = true := by
        rwa [List.find?_cons_of_neg _ (by simp [h])] at hsome
      simp only [List.map_cons, h, if_false, ite_false]
      rw [List.find?_cons_of_neg _ (by simp [h])]
      exact ih hsome'

/-- A search that fails on the left half of an append continues on the right
half. -/
theorem find?_append_none {α : Type} (p : α → Bool) (l1 l2 : List α)
    (h : l1.find? p = none) : (l1 ++ l2).find? p = l2.find? p := by
  rw [List.find?_append, h]
  rfl

/-- C10: for an existing user, `get_or_create` called with absent platform
values leaves the stored `username` and `first_name` unchanged; a call
reporting exactly the stored values performs no write at all; and the
`created` flag is true exactly when a new row was inserted. -/
theorem get_or_create_frame (users : List User) (telegram_id tid2 : Int) (user : User)
    (lc : String) (un fn : Option String)
    (hfound : UserRepository.get_by_telegram_id users telegram_id = some user)
    (hmiss : UserRepository.get_by_telegram_id users tid2 = none) :
    ((UserRepository.get_or_create users telegram_id none none lc).user.username
        = user.username ∧
      (UserRepository.get_or_create users telegram_id none none lc).user.first_name
        = user.first_name ∧
      (UserRepository.get_or_create users telegram_id none none lc).created = false ∧
      UserRepository.get_by_telegram_id
          (UserRepository.get_or_create users telegram_id none none lc).users telegram_id
        = some (UserRepository.get_or_create users telegram_id none none lc).user) ∧
    ((UserRepository.get_or_create users telegram_id user.username user.first_name
        user.language_code).wrote = false ∧
      (UserRepository.get_or_create users telegram_id user.username user.first_name
        user.language_code).users = users ∧
      (UserRepository.get_or_create users telegram_id user.username user.first_name
        user.language_code).created = false) ∧
    ((UserRepository.get_or_create users tid2 un fn lc).created = true ∧
      (UserRepository.get_or_create users tid2 un fn lc).users.length
        = users.length + 1 ∧
      UserRepository.get_by_telegram_id
          (UserRepository.get_or_create users tid2 un fn lc).users tid2
        = some (UserRepository.get_or_create users tid2 un fn lc).user) := by
  have hfound' : users.find? (fun u => u.telegram_id == telegram_id) = some user := hfound
  have htid : (user.telegram_id == telegram_id) = true :=
    @List.find?_some User (fun u => u.telegram_id == telegram_id) user users hfound'
  have hmiss' : users.find? (fun u => u.telegram_id == tid2) = none := hmiss
  refine ⟨?_, ?_, ?_⟩
  · by_cases h3 : (!(lc == "") && !(user.language_code == lc)) = true
    · have hx : UserRepository.get_or_create users telegram_id none none lc =
          { user := { user with language_code := lc }, created := false,
            users := users.map
              (fun u => if u.telegram_id == telegram_id then
                { user with language_code := lc } else u),
            wrote := true } := by
        simp [UserRepository.get_or_create, hfound, h3]
      rw [hx]
      refine ⟨rfl, rfl, rfl, ?_⟩
      exact get_by_telegram_id_map_replace users telegram_id _ htid (by simp [hfound])
    · have h3' : (!(lc == "") && !(user.language_code == lc)) = false := by
        rwa [Bool.not_eq_true] at h3
      have hx : UserRepository.get_or_create users telegram_id none none lc =
          { user := user, created := false, users := users, wrote := false } := by
        simp [UserRepository.get_or_create, hfound, h3']
      rw [hx]
      exact ⟨rfl, rfl, rfl, hfound⟩
  · have hx : UserRepository.get_or_create users telegram_id user.username
        user.first_name user.language_code =
        { user := user, created := false, users := users, wrote := false } := by
      simp [UserRepository.get_or_create, hfound]
    rw [hx]
    exact ⟨rfl, rfl, rfl⟩
  · have hx : UserRepository.get_or_create users tid2 un fn lc =
        { user := ⟨tid2, un, fn, lc⟩, created := true,
          users := users ++ [⟨tid2, un, fn, lc⟩], wrote := true } := by
      simp [UserRepository.get_or_create, hmiss]
    rw [hx]
    refine ⟨rfl, by simp, ?_⟩
    unfold UserRepository.get_by_telegram_id
    rw [find?_append_none _ _ _ hmiss']
    exact List.find?_cons_of_pos _ (by simp)

/-- Witness for C10 over a one-row table: user 1 exists, user 2 does not. -/
theorem get_or_create_frame_witness :
    ((UserRepository.get_or_create [user1] 1 none none "en").user.username
        = user1.username ∧
      (UserRepository.get_or_create [user1] 1 none none "en").user.first_name
        = user1.first_name ∧
      (UserRepository.get_or_create [user1] 1 none none "en").created = false ∧
      UserRepository.get_by_telegram_id
          (UserRepository.get_or_create [user1] 1 none none "en").users 1
        = some (UserRepository.get_or_create [user1] 1 none none "en").user) ∧
    ((UserRepository.get_or_create [user1] 1 user1.username user1.first_name
        user1.language_code).wrote = false ∧
      (UserRepository.get_or_create [user1] 1 user1.username user1.first_name
        user1.language_code).users = [user1] ∧
      (UserRepository.get_or_create [user1] 1 user1.username user1.first_name
        user1.language_code).created = false) ∧
    ((UserRepository.get_or_create [user1] 2 (some "bob") (some "Bob") "en").created = true ∧
      (UserRepository.get_or_create [user1] 2 (some "bob") (some "Bob") "en").users.length
        = [user1].length + 1 ∧
      UserRepository.get_by_telegram_id
          (UserRepository.get_or_create [user1] 2 (some "bob") (some "Bob") "en").users 2
        = some (UserRepository.get_or_create [user1] 2 (some "bob") (some "Bob") "en").user) :=
  get_or_create_frame [user1] 1 2 user1 "en" (some "bob") (some "Bob")
    (by decide) (by decide)

/-- C8: one tick processes every due (schedule, user) pair — the tick returns
normally with one boolean per due pair, and the i-th entry is exactly the
outcome of the i-th user's own pipeline, whatever happened in the earlier
pipelines of the batch (`send_scheduled_digest` turns every exception into
`False`). -/
theorem scheduler_batch_isolation (db : List (Schedule × User)) (time_str : String)
    (outcomes : Int → UserOutcome) (i : Nat)
    (hi : i < (ScheduleRepository.get_schedules_for_time db time_str).length) :
    (check_and_send_digests db time_str outcomes).1.length =
      (ScheduleRepository.get_schedules_for_time db time_str).length ∧
    (check_and_send_digests db time_str outcomes).1.getD i false =
      send_scheduled_digest (outcomes
        (((ScheduleRepository.get_schedules_for_time db time_str).getD i dfltPair).2.telegram_id)) := by
  constructor
  · simp [check_and_send_digests]
  · have h1 : (ScheduleRepository.get_schedules_for_time db time_str)[i]? =
        some ((ScheduleRepository.get_schedules_for_time db time_str).getD i dfltPair) := by
      rw [List.getD_eq_getElem?_getD, List.getElem?_eq_getElem hi]
      rfl
    simp only [check_and_send_digests]
    rw [List.getD_eq_getElem?_getD, List.getElem?_map, h1]
    rfl

/-- Witness for C8: two due users at 08:00; user 1's pipeline raises inside
digest generation, user 2's still runs and succeeds. -/
theorem scheduler_batch_isolation_witness :
    (check_and_send_digests db2 "08:00" outcomes2).1.length =
      (ScheduleRepository.get_schedules_for_time db2 "08:00").length ∧
    (check_and_send_digests db2 "08:00" outcomes2).1.getD 1 false =
      send_scheduled_digest (outcomes2
        (((ScheduleRepository.get_schedules_for_time db2 "08:00").getD 1 dfltPair).2.telegram_id)) :=
  scheduler_batch_isolation db2 "08:00" outcomes2 1 (by decide)

/-- A retrying attempt of `_request` (any non-200/403/400 response or network
error) recurses on the next attempt, sleeping `2 ^ attempt` seconds unless it
was the final attempt. -/
theorem requestLoop_retry_step (responses : Nat → HttpOutcome) (attempt remaining : Nat)
    (h : otherFailure (responses attempt) = true) :
    requestLoop responses attempt (remaining + 1) =
      (let r := requestLoop responses (attempt + 1) remaining
       if remaining = 0 then (r.1, r.2.1, r.2.2 + 1)
       else (r.1, 2 ^ attempt :: r.2.1, r.2.2 + 1)) := by
  cases hc : responses attempt with
  | netError => simp [requestLoop, hc]
  | resp code data =>
    rw [hc] at h
    simp only [otherFailure, Bool.and_eq_true, Bool.not_eq_true'] at h
    obtain ⟨⟨h200, h403⟩, h400⟩ := h
    have n200 : code ≠ 200 := by simpa using h200
    have n403 : code ≠ 403 := by simpa using h403
    have n400 : code ≠ 400 := by simpa using h400
    simp [requestLoop, hc, n200, n403, n400]

/-- Three failing attempts exhaust `_request`: no data, backoff sleeps of 1s
then 2s, three attempts consumed. -/
theorem requestLoop_all_failures (responses : Nat → HttpOutcome)
    (h : ∀ i, i < 3 → otherFailure (responses i) = true) :
    requestLoop responses 0 3 = (.noData, [1, 2], 3) := by
  have e3 : requestLoop responses 3 0 = (.noData, [], 0) := by simp [requestLoop]
  have e2 : requestLoop responses 2 1 = (.noData, [], 1) := by
    rw [show (1 : Nat) = 0 + 1 from rfl, requestLoop_retry_step responses 2 0 (h 2 (by omega))]
    simp [e3]
  have e1 : requestLoop responses 1 2 = (.noData, [2], 2) := by
    rw [show (2 : Nat) = 1 + 1 from rfl, requestLoop_retry_step responses 1 1 (h 1 (by omega))]
    simp [e2]
  rw [show (3 : Nat) = 2 + 1 from rfl, requestLoop_retry_step responses 0 2 (h 0 (by omega))]
  simp [e1]

/-- C6 (amended): on a cache miss, an HTTP 400 yields no data and an empty
search result with no retry (one attempt, no sleep); an HTTP 403 makes
`_request` raise the distinguished rate-limit condition after one attempt,
which `search` catches internally and turns into the empty list for its
caller; any other non-2xx or network failure is retried up to 2 times with
backoff sleeps of 1s then 2s, after which `search` returns the empty list —
`search` never propagates a hard error. -/
theorem news_request_failure_taxonomy (c : TTLCache (List Article)) (now : Int)
    (query lang : String) (d : List Article)
    (r400 r403 rOther : Nat → HttpOutcome)
    (hmiss : (c.get now (searchCacheKey query lang)).1 = none)
    (h400 : r400 0 = .resp 400 d)
    (h403 : r403 0 = .resp 403 d)
    (hOther : ∀ i, i < 3 → otherFailure (rOther i) = true) :
    NewsApiService.request r400 = (.noData, [], 1) ∧
    (NewsApiService.searchFull c now query lang r400).1 = [] ∧
    NewsApiService.request r403 = (.rateLimited, [], 1) ∧
    (NewsApiService.searchFull c now query lang r403).1 = [] ∧
    NewsApiService.request rOther = (.noData, [1, 2], 3) ∧
    (NewsApiService.searchFull c now query lang rOther).1 = [] := by
  have hr400 : NewsApiService.request r400 = (.noData, [], 1) := by
    simp [NewsApiService.request, requestLoop, h400]
  have hr403 : NewsApiService.request r403 = (.rateLimited, [], 1) := by
    simp [NewsApiService.request, requestLoop, h403]
  have hrOther : NewsApiService.request rOther = (.noData, [1, 2], 3) :=
    requestLoop_all_failures rOther hOther
  have hsN : (NewsApiService.search c now query lang .noData).1 = [] := by
    simp [NewsApiService.search, hmiss]
  have hsR : (NewsApiService.search c now query lang .rateLimited).1 = [] := by
    simp [NewsApiService.search, hmiss]
  refine ⟨hr400, ?_, hr403, ?_, hrOther, ?_⟩
  · rw [NewsApiService.searchFull, hr400]
    exact hsN
  · rw [NewsApiService.searchFull, hr403]
    exact hsR
  · rw [NewsApiService.searchFull, hrOther]
    exact hsN

/-- Witness for C6 at concrete response schedules over an empty cache. -/
theorem news_request_failure_taxonomy_witness :
    NewsApiService.request (fun _ => .resp 400 []) = (.noData, [], 1) ∧
    (NewsApiService.searchFull emptyArticlesCache 0 "python" "ru"
      (fun _ => .resp 400 [])).1 = [] ∧
    NewsApiService.request (fun _ => .resp 403 []) = (.rateLimited, [], 1) ∧
    (NewsApiService.searchFull emptyArticlesCache 0 "python" "ru"
      (fun _ => .resp 403 [])).1 = [] ∧
    NewsApiService.request (fun _ => HttpOutcome.netError) = (.noData, [1, 2], 3) ∧
    (NewsApiService.searchFull emptyArticlesCache 0 "python" "ru"
      (fun _ => HttpOutcome.netError)).1 = [] :=
  news_request_failure_taxonomy emptyArticlesCache 0 "python" "ru" []
    (fun _ => .resp 400 []) (fun _ => .resp 403 []) (fun _ => HttpOutcome.netError)
    (by decide) rfl rfl (fun _ _ => rfl)

/-- C6 counterexample to the claim as stated: the rate-limit condition is not
exposed to the callers of `search` — over an empty cache, a 403 on every
attempt produces exactly the same observable outcome (result and cache state)
as a 500 on every attempt, namely the empty list. -/
theorem search_rate_limit_not_distinguished :
    NewsApiService.searchFull emptyArticlesCache 0 "python" "ru" (fun _ => .resp 403 []) =
      NewsApiService.searchFull emptyArticlesCache 0 "python" "ru" (fun _ => .resp 500 []) ∧
    (NewsApiService.searchFull emptyArticlesCache 0 "python" "ru"
      (fun _ => .resp 403 [])).1 = [] := by
  exact ⟨by decide, by decide⟩

/-- Every article kept by the dedup loop comes from the input list. -/
theorem dedupArticles_subset : ∀ (l : List Article) (seen : List String) (a : Article),
    a ∈ dedupArticles seen l → a ∈ l := by
  intro l
  induction l with
  | nil => intro seen a h; simp [dedupArticles] at h
  | cons x rest ih =>
    intro seen a h
    cases hc : seen.contains x.external_id with
    | true =>
      rw [dedupArticles, if_pos hc] at h
      exact List.mem_cons_of_mem _ (ih seen a h)
    | false =>
      rw [dedupArticles, if_neg (by rw [hc]; exact Bool.false_ne_true)] at h
      rcases List.mem_cons.mp h with rfl | h2
      · exact List.mem_cons_self _ _
      · exact List.mem_cons_of_mem _ (ih _ a h2)

/-- No article kept by the dedup loop carries an identity already in the seen
set. -/
theorem dedupArticles_not_seen : ∀ (l : List Article) (seen : List String) (a : Article),
    a ∈ dedupArticles seen l → a.external_id ∉ seen := by
  intro l
  induction l with
  | nil => intro seen a h; simp [dedupArticles] at h
  | cons x rest ih =>
    intro seen a h
    cases hc : seen.contains x.external_id with
    | true =>
      rw [dedupArticles, if_pos hc] at h
      exact ih seen a h
    | false =>
      rw [dedupArticles, if_neg (by rw [hc]; exact Bool.false_ne_true)] at h
      rcases List.mem_cons.mp h with rfl | h2
      · intro hmem
        have hcc : seen.contains a.external_id = true := List.elem_iff.mpr hmem
        rw [hc] at hcc
        exact Bool.false_ne_true hcc
      · have h3 := ih (x.external_id :: seen) a h2
        intro hmem
        exact h3 (List.mem_cons_of_mem _ hmem)

/-- The identities kept by the dedup loop are pairwise distinct. -/
theorem dedupArticles_nodup_ids : ∀ (l : List Article) (seen : List String),
    ((dedupArticles seen l).map (fun a => a.external_id)).Nodup := by
  intro l
  induction l with
  | nil => intro seen; simp [dedupArticles]
  | cons x rest ih =>
    intro seen
    cases hc : seen.contains x.external_id with
    | true =>
      rw [dedupArticles, if_pos hc]
      exact ih seen
    | false =>
      rw [dedupArticles, if_neg (by rw [hc]; exact Bool.false_ne_true)]
      rw [List.map_cons, List.nodup_cons]
      constructor
      · intro hmem
        rcases List.mem_map.mp hmem with ⟨a, ha, hext⟩
        have hns := dedupArticles_not_seen rest (x.external_id :: seen) a ha
        have hx : a.external_id ∈ x.external_id :: seen := by
          rw [hext]
          exact List.mem_cons_self _ _
        exact hns hx
      · exact ih _

/-- For an identity outside the seen set, the dedup loop keeps exactly the
first occurrence: searching the deduplicated list finds the same article as
searching the input. -/
theorem dedupArticles_find? : ∀ (l : List Article) (seen : List String) (id : String),
    id ∉ seen →
    (dedupArticles seen l).find? (fun b => b.external_id == id) =
      l.find? (fun b => b.external_id == id) := by
  intro l
  induction l with
  | nil => intro seen id h; rfl
  | cons x rest ih =>
    intro seen id hid
    by_cases hx : x.external_id = id
    · have hpx : (x.external_id == id) = true := by simp [hx]
      rw [@List.find?_cons_of_pos Article (fun b => b.external_id == id) x rest hpx]
      have hc : seen.contains x.external_id = false := by
        cases hcc : seen.contains x.external_id with
        | false => rfl
        | true =>
          exfalso
          apply hid
          rw [← hx]
          exact List.elem_iff.mp hcc
      rw [dedupArticles, if_neg (by rw [hc]; exact Bool.false_ne_true)]
      exact @List.find?_cons_of_pos Article (fun b => b.external_id == id) x _ hpx
    · rw [@List.find?_cons_of_neg Article (fun b => b.external_id == id) x rest
        (by simp [hx])]
      cases hc : seen.contains x.external_id with
      | true =>
        rw [dedupArticles, if_pos hc]
        exact ih seen id hid
      | false =>
        rw [dedupArticles, if_neg (by rw [hc]; exact Bool.false_ne_true)]
        rw [@List.find?_cons_of_neg Article (fun b => b.external_id == id) x
          (dedupArticles (x.external_id :: seen) rest) (by simp [hx])]
        refine ih (x.external_id :: seen) id ?_
        intro hmem
        rcases List.mem_cons.mp hmem with h1 | h2
        · exact hx h1.symm
        · exact hid h2

/-- Every identity of the input that is outside the seen set survives the
dedup loop. -/
theorem dedupArticles_ids_mem : ∀ (l : List Article) (seen : List String) (id : String),
    id ∈ l.map (fun a => a.external_id) → id ∉ seen →
    id ∈ (dedupArticles seen l).map (fun a => a.external_id) := by
  intro l
  induction l with
  | nil => intro seen id h _; simp at h
  | cons x rest ih =>
    intro seen id hmem hid
    rw [List.map_cons] at hmem
    have hkeep : x.external_id = id →
        id ∈ (dedupArticles seen (x :: rest)).map (fun a => a.external_id) := by
      intro h1
      have hc : seen.contains x.external_id = false := by
        cases hcc : seen.contains x.external_id with
        | false => rfl
        | true =>
          exfalso
          apply hid
          rw [← h1]
          exact List.elem_iff.mp hcc
      rw [dedupArticles, if_neg (by rw [hc]; exact Bool.false_ne_true)]
      rw [List.map_cons, h1]
      exact List.mem_cons_self _ _
    rcases List.mem_cons.mp hmem with h1 | h2
    · exact hkeep h1.symm
    · by_cases hxid : x.external_id = id
      · exact hkeep hxid
      · cases hc : seen.contains x.external_id with
        | true =>
          rw [dedupArticles, if_pos hc]
          exact ih seen id h2 hid
        | false =>
          rw [dedupArticles, if_neg (by rw [hc]; exact Bool.false_ne_true)]
          rw [List.map_cons]
          refine List.mem_cons_of_mem _ (ih (x.external_id :: seen) id h2 ?_)
          intro hmm
          rcases List.mem_cons.mp hmm with hh | hh
          · exact hxid hh.symm
          · exact hid hh

/-- In a list with pairwise-distinct identities, searching for the identity of
a member finds that member. -/
theorem find?_of_mem_nodup_ids : ∀ (l : List Article) (a : Article),
    (l.map (fun b => b.external_id)).Nodup → a ∈ l →
    l.find? (fun b => b.external_id == a.external_id) = some a := by
  intro l
  induction l with
  | nil => intro a _ h; simp at h
  | cons x rest ih =>
    intro a hnd ha
    rw [List.map_cons, List.nodup_cons] at hnd
    obtain ⟨hnx, hnr⟩ := hnd
    rcases List.mem_cons.mp ha with rfl | h2
    · exact List.find?_cons_of_pos _ (by simp)
    · have hne : x.external_id ≠ a.external_id := by
        intro heq
        apply hnx
        rw [heq]
        exact List.mem_map.mpr ⟨a, h2, rfl⟩
      rw [List.find?_cons_of_neg _ (by simp [hne])]
      exact ih a hnr h2

/-- The sort comparator of `search_multiple` is transitive. -/
theorem articleLe_trans : ∀ (a b c : Article),
    articleLe a b = true → articleLe b c = true → articleLe a c = true := by
  intro a b c hab hbc
  simp only [articleLe, decide_eq_true_eq] at *
  omega

/-- The sort comparator of `search_multiple` is total. -/
theorem articleLe_total : ∀ (a b : Article), (articleLe a b || articleLe b a) = true := by
  intro a b
  simp only [articleLe, Bool.or_eq_true, decide_eq_true_eq]
  omega

/-- Articles filtered to one publication instant are pairwise ordered under
the comparator (all keys are equal). -/
theorem pairwise_articleLe_filter_eq (t : Int) (l : List Article) :
    (l.filter (fun a => a.published_at == t)).Pairwise (fun a b => articleLe a b = true) := by
  refine List.pairwise_of_forall_mem_list ?_
  intro a ha b hb
  have ha3 : a.published_at = t := by simpa using (List.mem_filter.mp ha).2
  have hb3 : b.published_at = t := by simpa using (List.mem_filter.mp hb).2
  simp [articleLe, ha3, hb3]

/-- C4: `search_multiple` keeps each distinct article identity exactly once —
the kept article is the first occurrence in query-list order — and the merged
output is sorted by publication timestamp descending by a stable sort:
articles sharing a timestamp keep exactly their deduplication (query-list)
order, so the output is a function of the per-query results alone. -/
theorem search_multiple_dedup_sorted (results : List (List Article)) :
    ((NewsApiService.search_multiple results).map (fun a => a.external_id)).Nodup ∧
    (∀ id : String,
      id ∈ (NewsApiService.search_multiple results).map (fun a => a.external_id) ↔
        id ∈ results.flatten.map (fun a => a.external_id)) ∧
    (∀ a ∈ NewsApiService.search_multiple results,
      results.flatten.find? (fun b => b.external_id == a.external_id) = some a) ∧
    (NewsApiService.search_multiple results).Pairwise
      (fun a b => b.published_at ≤ a.published_at) ∧
    (∀ t : Int,
      (NewsApiService.search_multiple results).filter (fun a => a.published_at == t) =
        (dedupArticles [] results.flatten).filter (fun a => a.published_at == t)) := by
  have hms : NewsApiService.search_multiple results =
      (dedupArticles [] results.flatten).mergeSort articleLe := rfl
  have hperm : (NewsApiService.search_multiple results).Perm
      (dedupArticles [] results.flatten) := by
    rw [hms]
    exact List.mergeSort_perm _ articleLe
  have hnd : ((dedupArticles [] results.flatten).map (fun a => a.external_id)).Nodup :=
    dedupArticles_nodup_ids results.flatten []
  refine ⟨?_, ?_, ?_, ?_, ?_⟩
  · exact ((hperm.map (fun a => a.external_id)).symm).nodup hnd
  · intro id
    constructor
    · intro h
      rcases List.mem_map.mp h with ⟨a, ha, rfl⟩
      have had : a ∈ dedupArticles [] results.flatten := (hperm.mem_iff).mp ha
      exact List.mem_map.mpr ⟨a, dedupArticles_subset results.flatten [] a had, rfl⟩
    · intro h
      have h2 := dedupArticles_ids_mem results.flatten [] id h (by simp)
      exact ((hperm.map (fun a => a.external_id)).mem_iff).mpr h2
  · intro a ha
    have had : a ∈ dedupArticles [] results.flatten := (hperm.mem_iff).mp ha
    rw [← dedupArticles_find? results.flatten [] a.external_id (by simp)]
    exact find?_of_mem_nodup_ids _ a hnd had
  · rw [hms]
    exact (List.sorted_mergeSort articleLe_trans articleLe_total _).imp
      (fun h => of_decide_eq_true h)
  · intro t
    have hpw := pairwise_articleLe_filter_eq t (dedupArticles [] results.flatten)
    have hsub : ((dedupArticles [] results.flatten).filter
        (fun a => a.published_at == t)).Sublist (dedupArticles [] results.flatten) :=
      List.filter_sublist _
    have hsubs : ((dedupArticles [] results.flatten).filter
        (fun a => a.published_at == t)).Sublist (NewsApiService.search_multiple results) := by
      rw [hms]
      exact List.sublist_mergeSort articleLe_trans articleLe_total hpw hsub
    have hlen : ((NewsApiService.search_multiple results).filter
        (fun a => a.published_at == t)).length =
        ((dedupArticles [] results.flatten).filter (fun a => a.published_at == t)).length :=
      (hperm.filter _).length_eq
    have hsubf := hsubs.filter (fun a => a.published_at == t)
    rw [List.filter_filter] at hsubf
    simp only [Bool.and_self] at hsubf
    exact (hsubf.eq_of_length hlen.symm).symm

/-- Folding string concatenation concatenates the character lists. -/
theorem foldl_append_data : ∀ (l : List String) (s : String),
    (l.foldl (fun r t => r ++ t) s).data = s.data ++ (l.map String.data).flatten := by
  intro l
  induction l with
  | nil => intro s; simp
  | cons x xs ih =>
    intro s
    rw [List.foldl_cons, ih (s ++ x)]
    simp [String.data_append]

/-- The character list of a joined string list is the flattened list of the
parts' characters. -/
theorem string_join_data (l : List String) :
    (String.join l).data = (l.map String.data).flatten := by
  have h : String.join l = l.foldl (fun r t => r ++ t) "" := rfl
  rw [h, foldl_append_data]
  rfl

/-- A part of a joined list is an infix of the join, at the character level. -/
theorem data_infix_of_mem_parts (parts : List String) (part : String)
    (h : part ∈ parts) : part.data <:+: (String.join parts).data := by
  rw [string_join_data]
  exact List.infix_of_mem_flatten (List.mem_map.mpr ⟨part, h, rfl⟩)

/-- An infix of a string stays an infix after prepending another string. -/
theorem data_infix_extend_left (l : List Char) (x y : String)
    (h : l <:+: y.data) : l <:+: (x ++ y).data := by
  rcases h with ⟨s, t, hst⟩
  exact ⟨x.data ++ s, t, by rw [String.data_append, ← hst]; simp⟩

/-- One escape pass never empties a non-empty character list. -/
theorem replaceEsc_ne_nil (c : Char) (l : List Char) (h : l ≠ []) :
    replaceEsc c l ≠ [] := by
  cases l with
  | nil => exact absurd rfl h
  | cons x xs =>
    rw [replaceEsc]
    split <;> simp

/-- The characters of a packed string are the packed list. -/
theorem string_data_mk (l : List Char) : (String.mk l).data = l := rfl

/-- The characters of an escaped string, as the fold of the escape passes. -/
theorem escape_markdown_data (s : String) :
    (escape_markdown s).data =
      special_chars.foldl (fun acc c => replaceEsc c acc) s.data := by
  rw [escape_markdown, string_data_mk]

/-- The characters of a character-sliced string. -/
theorem strTake_data (s : String) (n : Nat) : (strTake s n).data = s.data.take n := by
  rw [strTake, string_data_mk]

/-- The escape function never empties a non-empty string. -/
theorem escape_markdown_data_ne_nil (s : String) (h : s.data ≠ []) :
    (escape_markdown s).data ≠ [] := by
  have hgen : ∀ (cs : List Char) (acc : List Char), acc ≠ [] →
      cs.foldl (fun acc c => replaceEsc c acc) acc ≠ [] := by
    intro cs
    induction cs with
    | nil => intro acc h2; exact h2
    | cons c cs ih =>
      intro acc h2
      rw [List.foldl_cons]
      exact ih _ (replaceEsc_ne_nil c acc h2)
  rw [escape_markdown_data]
  exact hgen special_chars s.data h

/-- The escaped title sits inside the full-format article template. -/
theorem AF_has_title (t d s ta u : String) :
    t.data <:+: (ARTICLE_FORMAT t d s ta u).data := by
  have h : (ARTICLE_FORMAT t d s ta u).data =
      "*".data ++ t.data ++
        ("*\n" ++ d ++ "\n" ++ s ++ " | " ++ ta ++ "\n" ++ u ++ "\n").data := by
    simp [ARTICLE_FORMAT, String.data_append]
  rw [h]
  exact List.infix_append _ _ _

/-- The escaped title sits inside the short article template. -/
theorem AFS_has_title (t s ta u : String) :
    t.data <:+: (ARTICLE_FORMAT_SHORT t s ta u).data := by
  have h : (ARTICLE_FORMAT_SHORT t s ta u).data =
      "*".data ++ t.data ++ ("*\n" ++ s ++ " | " ++ ta ++ "\n" ++ u ++ "\n").data := by
    simp [ARTICLE_FORMAT_SHORT, String.data_append]
  rw [h]
  exact List.infix_append _ _ _

/-- The source string sits inside the full-format article template. -/
theorem AF_has_source (t d s ta u : String) :
    s.data <:+: (ARTICLE_FORMAT t d s ta u).data := by
  have h : (ARTICLE_FORMAT t d s ta u).data =
      ("*" ++ t ++ "*\n" ++ d ++ "\n").data ++ s.data ++
        (" | " ++ ta ++ "\n" ++ u ++ "\n").data := by
    simp [ARTICLE_FORMAT, String.data_append]
  rw [h]
  exact List.infix_append _ _ _

/-- The source string sits inside the short article template. -/
theorem AFS_has_source (t s ta u : String) :
    s.data <:+: (ARTICLE_FORMAT_SHORT t s ta u).data := by
  have h : (ARTICLE_FORMAT_SHORT t s ta u).data =
      ("*" ++ t ++ "*\n").data ++ s.data ++ (" | " ++ ta ++ "\n" ++ u ++ "\n").data := by
    simp [ARTICLE_FORMAT_SHORT, String.data_append]
  rw [h]
  exact List.infix_append _ _ _

/-- The escaped truncated description sits inside the full-format article
template when inserted as the prefix of the description slot. -/
theorem AF_has_desc (t e ell s ta u : String) :
    e.data <:+: (ARTICLE_FORMAT t (e ++ ell) s ta u).data := by
  have h : (ARTICLE_FORMAT t (e ++ ell) s ta u).data =
      ("*" ++ t ++ "*\n").data ++ e.data ++
        (ell ++ "\n" ++ s ++ " | " ++ ta ++ "\n" ++ u ++ "\n").data := by
    simp [ARTICLE_FORMAT, String.data_append]
  rw [h]
  exact List.infix_append _ _ _

section

attribute [local irreducible] ARTICLE_FORMAT ARTICLE_FORMAT_SHORT escape_markdown
  strTake sourceOrPlaceholder format_time_ago

/-- The escaped title sits inside every rendered article block. -/
theorem articleBlock_has_title (now : Int) (sd : Bool) (a : Article) :
    (escape_markdown a.title).data <:+: (articleBlock now sd a).data := by
  simp only [articleBlock]
  repeat' split
  all_goals first
    | exact AF_has_title _ _ _ _ _
    | exact AFS_has_title _ _ _ _

/-- The raw source string sits inside every rendered article block. -/
theorem articleBlock_has_source (now : Int) (sd : Bool) (a : Article) :
    (sourceOrPlaceholder a).data <:+: (articleBlock now sd a).data := by
  simp only [articleBlock]
  repeat' split
  all_goals first
    | exact AF_has_source _ _ _ _ _
    | exact AFS_has_source _ _ _ _

/-- With descriptions shown and a non-empty description present, the escaped
truncated description sits inside the rendered article block. -/
theorem articleBlock_has_desc (now : Int) (a : Article) (d : String)
    (hd : a.description = some d) (hne : d ≠ "") :
    (escape_markdown (strTake d 200)).data <:+: (articleBlock now true a).data := by
  have hdne : (d == "") = false := beq_eq_false_iff_ne.mpr hne
  have htk : (strTake d 200).data ≠ [] := by
    rw [strTake_data]
    intro hx
    rcases List.take_eq_nil_iff.mp hx with h | h
    · exact absurd h (by omega)
    · exact hne (String.ext h)
  have hescne : (escape_markdown (strTake d 200)).data ≠ [] :=
    escape_markdown_data_ne_nil _ htk
  have hdesc : ((escape_markdown (strTake d 200) ++
      (if d.length > 200 then "..." else "")) == "") = false := by
    refine beq_eq_false_iff_ne.mpr ?_
    intro heq
    have hdata : (escape_markdown (strTake d 200) ++
        (if d.length > 200 then "..." else "")).data = [] := by rw [heq]
    rw [String.data_append] at hdata
    exact hescne (List.append_eq_nil.mp hdata).1
  simp only [articleBlock, hd, Option.getD_some, hdne, Bool.not_false, Bool.true_and,
    eq_self_iff_true, if_true, ite_true, hdesc]
  exact AF_has_desc _ _ _ _ _ _

end

/-- Every article of the list owns a part of the rendered numbered blocks, and
its block contains the article's rendering as an infix. -/
theorem articleParts_block (now : Int) (sd : Bool) (n : Nat) :
    ∀ (l : List Article) (i : Nat) (a : Article), a ∈ l →
    ∃ b ∈ articleParts now sd n i l, (articleBlock now sd a).data <:+: b.data := by
  intro l
  induction l with
  | nil => intro i a h; simp at h
  | cons x rest ih =>
    intro i a h
    rcases List.mem_cons.mp h with rfl | h2
    · refine ⟨toString (i + 1) ++ ". " ++ articleBlock now sd a, ?_, ?_⟩
      · rw [articleParts]
        split
        · exact List.mem_cons_self _ _
        · exact List.mem_cons_self _ _
      · exact data_infix_extend_left _ _ _ (List.infix_refl _)
    · obtain ⟨b, hb, hinf⟩ := ih (i + 1) a h2
      refine ⟨b, ?_, hinf⟩
      rw [articleParts]
      split
      · exact List.mem_cons_of_mem _ (List.mem_cons_of_mem _ hb)
      · exact List.mem_cons_of_mem _ hb

/-- Any infix of a member article's block is an infix of the whole rendered
digest message. -/
theorem format_infix_of_block (now : Int) (sd : Bool) (result : DigestResult)
    (a : Article) (l : List Char) (ha : a ∈ result.articles)
    (hl : l <:+: (articleBlock now sd a).data) :
    l <:+: (format_digest_message now result sd).data := by
  have hnem : result.articles.isEmpty = false :=
    List.isEmpty_eq_false.mpr (List.ne_nil_of_mem ha)
  obtain ⟨b, hb, hbinf⟩ :=
    articleParts_block now sd result.articles.length result.articles 0 a ha
  simp only [format_digest_message, hnem, Bool.false_eq_true, if_false, ite_false]
  refine (hl.trans hbinf).trans (data_infix_of_mem_parts _ b ?_)
  exact List.mem_append.mpr (Or.inl (List.mem_append.mpr (Or.inr hb)))

/-- C9 (amended): a digest with no articles renders as the empty string; in a
rendered digest (descriptions shown), each article's title and truncated
description are inserted through `_escape_markdown`, while the source name is
inserted verbatim, unescaped. -/
theorem format_digest_message_escapes (now : Int) (result r0 : DigestResult)
    (a : Article) (d : String)
    (h0 : r0.articles = [])
    (ha : a ∈ result.articles)
    (hd : a.description = some d)
    (hne : d ≠ "") :
    format_digest_message now r0 true = "" ∧
    (escape_markdown a.title).data <:+: (format_digest_message now result true).data ∧
    (escape_markdown (strTake d 200)).data <:+:
      (format_digest_message now result true).data ∧
    (sourceOrPlaceholder a).data <:+: (format_digest_message now result true).data := by
  have h0e : r0.articles.isEmpty = true := by rw [h0]; rfl
  refine ⟨?_, ?_, ?_, ?_⟩
  · rw [format_digest_message, if_pos h0e]
  · exact format_infix_of_block now true result a _ ha (articleBlock_has_title now true a)
  · exact format_infix_of_block now true result a _ ha
      (articleBlock_has_desc now a d hd hne)
  · exact format_infix_of_block now true result a _ ha
      (articleBlock_has_source now true a)

/-- Witness for C9 at a concrete digest with one described article. -/
theorem format_digest_message_escapes_witness :
    format_digest_message 0 digestR0 true = "" ∧
    (escape_markdown a2.title).data <:+: (format_digest_message 0 digestRd true).data ∧
    (escape_markdown (strTake "Details" 200)).data <:+:
      (format_digest_message 0 digestRd true).data ∧
    (sourceOrPlaceholder a2).data <:+: (format_digest_message 0 digestRd true).data :=
  format_digest_message_escapes 0 digestRd digestR0 a2 "Details" rfl (by decide) rfl
    (by decide)

set_option maxRecDepth 4096 in
/-- C9 counterexample to the claim as stated: the source name is not escaped —
in the rendered digest of `digestRSrc` the raw source `x_y` appears verbatim
and its escaped form does not appear at all. -/
theorem format_digest_source_unescaped :
    ("x_y".data <:+: (format_digest_message 0 digestRSrc true).data) ∧
    ¬ ("x\\_y".data <:+: (format_digest_message 0 digestRSrc true).data) := by
  exact ⟨by decide, by decide⟩
